import Mathlib

/-!
# Verification of the two-player grid snake match core

Shallow embedding of the simulation core of the repository:
`gameService.ts` (match registry, tick engine, apple spawning),
`matchmakingService.ts` (pairing queue) and the shared types of
`types/game.ts`.  JS `Map`s (iterated in insertion order) are modelled as
association lists; the stream of `Math.random` draws consumed by apple
spawning is an explicit parameter `draws : Nat → Position` together with a
running index.  Grid coordinates are `Int` (JS numbers; they go negative at
the top/left wall before the bounds check).
-/

/-- 2D position in the game grid (`types/game.ts` `Position`). -/
structure Position where
  x : Int
  y : Int
deriving DecidableEq

/-- Direction the snake can move (`types/game.ts` `Direction`). -/
inductive Direction
  | UP
  | DOWN
  | LEFT
  | RIGHT
deriving DecidableEq

/-- Game status (`types/game.ts` `GameStatus`). -/
inductive GameStatus
  | WAITING
  | READY
  | PLAYING
  | FINISHED
deriving DecidableEq

/-- Snake state (`types/game.ts` `Snake`); segments are head-first. -/
structure Snake where
  segments : List Position
  direction : Direction
  nextDirection : Direction
  isAlive : Bool
deriving DecidableEq

/-- Player in a game (`types/game.ts` `Player`). -/
structure Player where
  id : String
  socketId : String
  username : String
  snake : Snake
  isReady : Bool
deriving DecidableEq

/-- Grid dimensions (the `gridSize` record of `GameState`). -/
structure GridSize where
  width : Int
  height : Int
deriving DecidableEq

/-- Game state (`types/game.ts` `GameState`).  The JS
`Map<string, Player>` keyed by player id, iterated in insertion order, is
modelled as a `List Player`; every insertion in the source stores a player
whose `.id` equals its key. -/
structure GameState where
  id : String
  players : List Player
  apples : List Position
  gridSize : GridSize
  status : GameStatus
  tickRate : Nat
  winnerId : Option String
deriving DecidableEq

/-- The registry `activeGames : Map<string, GameState>`. -/
abbrev Registry := List (String × GameState)

/-- `Map.get` on the registry. -/
def mapGet (R : Registry) (k : String) : Option GameState :=
  (R.find? (fun e => e.1 == k)).map (fun e => e.2)

/-- `Map.set` on the registry: replace the first binding of `k`, else append. -/
def mapSet (R : Registry) (k : String) (v : GameState) : Registry :=
  match R with
  | [] => [(k, v)]
  | e :: rest => if e.1 == k then (k, v) :: rest else e :: mapSet rest k v

/-- Lookup in the player map by key (player id). -/
def playersGet (ps : List Player) (pid : String) : Option Player :=
  ps.find? (fun p => p.id == pid)

/-- `Map.set` on the player map: replace the first player stored under
`pid`, else append. -/
def playersSet (ps : List Player) (pid : String) (p : Player) : List Player :=
  match ps with
  | [] => [p]
  | q :: rest => if q.id == pid then p :: rest else q :: playersSet rest pid p

/-- `GRID_WIDTH` (gameService.ts line 11). -/
def GRID_WIDTH : Int := 20

/-- `GRID_HEIGHT` (gameService.ts line 12). -/
def GRID_HEIGHT : Int := 20

/-- `TICK_RATE` in milliseconds (gameService.ts line 13). -/
def TICK_RATE : Nat := 200

/-- `INITIAL_SNAKE_LENGTH` (gameService.ts line 14). -/
def INITIAL_SNAKE_LENGTH : Nat := 4

/-- `GameService.createGame`: builds a fresh `WAITING` game and stores it
with `activeGames.set(gameId, game)` — unconditionally, replacing any
existing binding. -/
def createGame (R : Registry) (gameId : String) : Registry × GameState :=
  let game : GameState :=
    { id := gameId
      players := []
      apples := []
      gridSize := { width := GRID_WIDTH, height := GRID_HEIGHT }
      status := GameStatus.WAITING
      tickRate := TICK_RATE
      winnerId := none }
  (mapSet R gameId game, game)

/-- `GameService.createInitialSnake`: player 0 starts near the top-left
quadrant moving right, player 1 near the bottom-right moving left; 4
segments laid head-first. -/
def createInitialSnake (playerNumber : Nat) : Snake :=
  if playerNumber = 0 then
    let startX : Int := GRID_WIDTH / 4
    let startY : Int := GRID_HEIGHT / 4
    { segments := (List.range INITIAL_SNAKE_LENGTH).map
        (fun i => { x := startX - (i : Int), y := startY })
      direction := Direction.RIGHT
      nextDirection := Direction.RIGHT
      isAlive := true }
  else
    let startX : Int := (GRID_WIDTH * 3) / 4
    let startY : Int := (GRID_HEIGHT * 3) / 4
    { segments := (List.range INITIAL_SNAKE_LENGTH).map
        (fun i => { x := startX + (i : Int), y := startY })
      direction := Direction.LEFT
      nextDirection := Direction.LEFT
      isAlive := true }

/-- `GameService.addPlayer`: `null` when the game is absent or already has
2 players; otherwise stores a new player (join order decides the start
position). -/
def addPlayer (R : Registry) (gameId playerId socketId : String)
    (username : Option String) : Registry × Option Player :=
  match mapGet R gameId with
  | none => (R, none)
  | some game =>
    if 2 ≤ game.players.length then (R, none)
    else
      let snake := createInitialSnake game.players.length
      let player : Player :=
        { id := playerId
          socketId := socketId
          username := username.getD ""
          snake := snake
          isReady := false }
      (mapSet R gameId { game with players := playersSet game.players playerId player },
       some player)

/-- `GameService.isOppositeDirection`. -/
def isOppositeDirection (dir1 dir2 : Direction) : Bool :=
  (dir1 == Direction.UP && dir2 == Direction.DOWN) ||
  (dir1 == Direction.DOWN && dir2 == Direction.UP) ||
  (dir1 == Direction.LEFT && dir2 == Direction.RIGHT) ||
  (dir1 == Direction.RIGHT && dir2 == Direction.LEFT)

/-- The exact 180° reverse of a direction (used to state the reversal
claim). -/
def oppositeDir : Direction → Direction
  | Direction.UP => Direction.DOWN
  | Direction.DOWN => Direction.UP
  | Direction.LEFT => Direction.RIGHT
  | Direction.RIGHT => Direction.LEFT

/-- `GameService.changeDirection`: no-op unless the game is `PLAYING`, the
player exists, its snake is alive and the request is not a 180° reversal;
otherwise buffers the request in `nextDirection`. -/
def changeDirection (R : Registry) (gameId playerId : String)
    (newDirection : Direction) : Registry :=
  match mapGet R gameId with
  | none => R
  | some game =>
    if game.status ≠ GameStatus.PLAYING then R
    else
      match playersGet game.players playerId with
      | none => R
      | some player =>
        if player.snake.isAlive = false then R
        else if isOppositeDirection player.snake.direction newDirection then R
        else
          let player' : Player :=
            { player with snake := { player.snake with nextDirection := newDirection } }
          mapSet R gameId { game with players := playersSet game.players playerId player' }

/-- `GameService.getNextPosition`. -/
def getNextPosition (pos : Position) (direction : Direction) : Position :=
  match direction with
  | Direction.UP => { x := pos.x, y := pos.y - 1 }
  | Direction.DOWN => { x := pos.x, y := pos.y + 1 }
  | Direction.LEFT => { x := pos.x - 1, y := pos.y }
  | Direction.RIGHT => { x := pos.x + 1, y := pos.y }

/-- `GameService.isOutOfBounds`. -/
def isOutOfBounds (pos : Position) (gridSize : GridSize) : Bool :=
  decide (pos.x < 0) || decide (gridSize.width ≤ pos.x) ||
  decide (pos.y < 0) || decide (gridSize.height ≤ pos.y)

/-- `GameService.collidesWithSnake`. -/
def collidesWithSnake (pos : Position) (segments : List Position) : Bool :=
  segments.any (fun segment => segment.x == pos.x && segment.y == pos.y)

/-- The occupied-cell set built at the top of `GameService.spawnApple`:
every snake segment of every player, then every existing apple. -/
def occupiedPositions (g : GameState) : List Position :=
  (g.players.map (fun p => p.snake.segments)).flatten ++ g.apples

/-- The rejection-sampling loop of `GameService.spawnApple`: draw grid
cells from the stream until a free one is found, bounded by the remaining
attempt budget; returns the chosen cell and the next unused draw index. -/
def spawnAppleLoop (occupied : List Position) (draws : Nat → Position) :
    Nat → Nat → Option (Position × Nat)
  | _, 0 => none
  | idx, fuel + 1 =>
    let c := draws idx
    if c ∈ occupied then spawnAppleLoop occupied draws (idx + 1) fuel
    else some (c, idx + 1)

/-- `GameService.spawnApple` on a game it was handed (during `tick` it
reads the same in-flight game object): rejection sampling bounded at 100
attempts; on success the new apple is pushed at the end of the list, on
exhaustion the game is unchanged (100 draws consumed). -/
def spawnApple (draws : Nat → Position) (idx : Nat) (g : GameState) :
    GameState × Nat :=
  match spawnAppleLoop (occupiedPositions g) draws idx 100 with
  | some (c, idx') => ({ g with apples := g.apples ++ [c] }, idx')
  | none => (g, idx + 100)

/-- `game.apples.findIndex(...)` followed by `splice(index, 1)`: remove
the first apple at the given position, `none` when no apple is there. -/
def eatApple (apples : List Position) (h : Position) : Option (List Position) :=
  match apples with
  | [] => none
  | a :: rest =>
    if a.x = h.x ∧ a.y = h.y then some rest
    else
      match eatApple rest h with
      | some rest' => some (a :: rest')
      | none => none

/-- The opponent-collision loop inside `GameService.tick` (lines 183–190):
some other, still-alive player's current segments contain the new head. -/
def opponentCollision (g : GameState) (pid : String) (newHead : Position) : Bool :=
  g.players.any (fun q =>
    (!(q.id == pid)) && q.snake.isAlive && collidesWithSnake newHead q.snake.segments)

/-- The body of the per-player loop of `GameService.tick` for the player
stored under `pid`, acting on the current (possibly mid-tick) game state:
commit `nextDirection`, step the head, run the wall / self / opponent
checks, then the apple branch (splice, spawn, grow) or the normal move. -/
def stepPlayer (draws : Nat → Position) (st : GameState × Nat) (pid : String) :
    GameState × Nat :=
  match playersGet st.1.players pid with
  | none => st
  | some player =>
    if player.snake.isAlive then
      match player.snake.segments with
      | [] =>
        ({ st.1 with
             players := playersSet st.1.players pid
               { player with snake := { player.snake with direction := player.snake.nextDirection } } },
         st.2)
      | head :: _ =>
        if isOutOfBounds (getNextPosition head player.snake.nextDirection) st.1.gridSize then
          ({ st.1 with
               players := playersSet st.1.players pid
                 { player with snake := { player.snake with
                     direction := player.snake.nextDirection, isAlive := false } } },
           st.2)
        else if collidesWithSnake (getNextPosition head player.snake.nextDirection)
            player.snake.segments then
          ({ st.1 with
               players := playersSet st.1.players pid
                 { player with snake := { player.snake with
                     direction := player.snake.nextDirection, isAlive := false } } },
           st.2)
        else if opponentCollision st.1 pid (getNextPosition head player.snake.nextDirection) then
          ({ st.1 with
               players := playersSet st.1.players pid
                 { player with snake := { player.snake with
                     direction := player.snake.nextDirection, isAlive := false } } },
           st.2)
        else
          match eatApple st.1.apples (getNextPosition head player.snake.nextDirection) with
          | some apples' =>
            let sp := spawnApple draws st.2
              { st.1 with
                  players := playersSet st.1.players pid
                    { player with snake := { player.snake with
                        direction := player.snake.nextDirection } },
                  apples := apples' }
            ({ sp.1 with
                 players := playersSet sp.1.players pid
                   { player with snake := { player.snake with
                       direction := player.snake.nextDirection,
                       segments := getNextPosition head player.snake.nextDirection ::
                         player.snake.segments } } },
             sp.2)
          | none =>
            ({ st.1 with
                 players := playersSet st.1.players pid
                   { player with snake := { player.snake with
                       direction := player.snake.nextDirection,
                       segments := (getNextPosition head player.snake.nextDirection ::
                         player.snake.segments).dropLast } } },
             st.2)
    else st

/-- The termination check at the end of `GameService.tick` (lines 214–223). -/
def checkGameOver (g : GameState) : GameState :=
  let alivePlayers := g.players.filter (fun p => p.snake.isAlive)
  if alivePlayers.length = 0 then
    { g with status := GameStatus.FINISHED }
  else if alivePlayers.length = 1 then
    { g with winnerId := some (((alivePlayers.head?).map Player.id).getD "")
             status := GameStatus.FINISHED }
  else g

/-- One full tick of a game already known to be `PLAYING`: process every
player in map (insertion) order, then the termination check. -/
def tickGame (draws : Nat → Position) (idx : Nat) (g : GameState) :
    GameState × Nat :=
  let st := (g.players.map (fun p => p.id)).foldl (stepPlayer draws) (g, idx)
  (checkGameOver st.1, st.2)

/-- `GameService.tick`: returns `false` and changes nothing when the match
is absent or not `PLAYING`; otherwise advances the match one step and
stores it back. -/
def tick (draws : Nat → Position) (idx : Nat) (R : Registry) (gameId : String) :
    Registry × Nat × Bool :=
  match mapGet R gameId with
  | none => (R, idx, false)
  | some game =>
    if game.status ≠ GameStatus.PLAYING then (R, idx, false)
    else
      let res := tickGame draws idx game
      (mapSet R gameId res.1, res.2, true)

/-- A waiting entry of the matchmaking queue (`matchmakingService.ts`
lines 5–9); `username` is optional in the field type, though `findMatch`
always pushes a defaulted string. -/
structure WaitingEntry where
  playerId : String
  socketId : String
  username : Option String
deriving DecidableEq

/-- Matchmaking state: the module-level queue plus the game registry it
drives through `GameService`. -/
structure MMState where
  queue : List WaitingEntry
  registry : Registry
deriving DecidableEq

/-- `findIndex` + `splice(index, 1)`: drop the first entry of the queue
with the given player id, if any. -/
def removeEntry (q : List WaitingEntry) (pid : String) : List WaitingEntry :=
  match q with
  | [] => []
  | e :: rest => if e.playerId = pid then rest else e :: removeEntry rest pid

/-- `MatchmakingService.findMatch`: drop any stale entry for the
requester, then either pair with the longest-waiting entry (shift) into a
freshly created game, or enqueue the requester.  The fresh game id
(`uuidv4()` in the source) is passed in as `newGameId`. -/
def findMatch (s : MMState) (playerId socketId : String) (username : Option String)
    (newGameId : String) : MMState × Option String :=
  let q1 := removeEntry s.queue playerId
  match q1 with
  | opponent :: rest =>
    let r1 := (createGame s.registry newGameId).1
    let r2 := (addPlayer r1 newGameId opponent.playerId opponent.socketId opponent.username).1
    let r3 := (addPlayer r2 newGameId playerId socketId username).1
    ({ queue := rest, registry := r3 }, some newGameId)
  | [] =>
    let entry : WaitingEntry :=
      { playerId := playerId, socketId := socketId, username := some (username.getD "") }
    ({ s with queue := q1 ++ [entry] }, none)

/-- `MatchmakingService.leaveQueue`. -/
def leaveQueue (s : MMState) (playerId : String) : MMState :=
  { s with queue := removeEntry s.queue playerId }

/-- Whether the player stored under `pid` is alive in `g` (`false` when
absent): an observation used to state tick properties. -/
def playerAliveAt (g : GameState) (pid : String) : Bool :=
  ((playersGet g.players pid).map (fun p => p.snake.isAlive)).getD false

/-- Segment count of the player stored under `pid` (0 when absent). -/
def playerSegsLen (g : GameState) (pid : String) : Nat :=
  ((playersGet g.players pid).map (fun p => p.snake.segments.length)).getD 0

/-- No alive snake self-overlaps: its segment list has no duplicate cell. -/
def aliveNodup (g : GameState) : Prop :=
  ∀ p ∈ g.players, p.snake.isAlive = true → p.snake.segments.Nodup

/-- No two distinct alive snakes share a cell. -/
def alivePairwiseDisjoint (g : GameState) : Prop :=
  ∀ p ∈ g.players, ∀ q ∈ g.players, p.id ≠ q.id →
    p.snake.isAlive = true → q.snake.isAlive = true →
    ∀ c, c ∈ p.snake.segments → c ∉ q.snake.segments

/-- The overlap-freedom invariant: outside of mid-tick evaluation, no grid
cell is occupied twice among alive snakes. -/
def noOverlap (g : GameState) : Prop :=
  aliveNodup g ∧ alivePairwiseDisjoint g

/-! ## Concrete fixtures

Small concrete matches used to instantiate the theorems below (witnesses
and counterexamples). -/

/-- A draw stream that always proposes the cell `(0, 0)`. -/
def exDraws0 : Nat → Position := fun _ => { x := 0, y := 0 }

/-- A draw stream that always proposes the cell `(6, 5)`. -/
def exDraws65 : Nat → Position := fun _ => { x := 6, y := 5 }

/-- Snake heading right with head at `(4, 5)`. -/
def exSnakeA : Snake :=
  { segments := [{ x := 4, y := 5 }, { x := 3, y := 5 }, { x := 2, y := 5 }, { x := 1, y := 5 }]
    direction := Direction.RIGHT, nextDirection := Direction.RIGHT, isAlive := true }

/-- Snake heading left with head at `(6, 5)`: its next head collides
head-to-head with `exSnakeA`'s next head at `(5, 5)`. -/
def exSnakeB : Snake :=
  { segments := [{ x := 6, y := 5 }, { x := 7, y := 5 }, { x := 8, y := 5 }, { x := 9, y := 5 }]
    direction := Direction.LEFT, nextDirection := Direction.LEFT, isAlive := true }

/-- Player `"a"` with `exSnakeA`. -/
def exPlayerA : Player :=
  { id := "a", socketId := "sA", username := "", snake := exSnakeA, isReady := true }

/-- Player `"b"` with `exSnakeB`. -/
def exPlayerB : Player :=
  { id := "b", socketId := "sB", username := "", snake := exSnakeB, isReady := true }

/-- Two-player `PLAYING` match heading into a simultaneous head-to-head
at the free cell `(5, 5)`. -/
def exGameHeadOn : GameState :=
  { id := "m", players := [exPlayerA, exPlayerB], apples := []
    gridSize := { width := 20, height := 20 }, status := GameStatus.PLAYING
    tickRate := 200, winnerId := none }

/-- The single player of `exGameEat`, about to eat the apple at `(6, 5)`. -/
def exPlayerEatSolo : Player :=
  { id := "a", socketId := "sA", username := ""
    snake := { segments := [{ x := 5, y := 5 }, { x := 4, y := 5 },
                 { x := 3, y := 5 }, { x := 2, y := 5 }]
               direction := Direction.RIGHT
               nextDirection := Direction.RIGHT, isAlive := true }
    isReady := true }

/-- Single-player `PLAYING` match whose snake is about to eat the apple
at `(6, 5)` (the spec §8 end-to-end scenario). -/
def exGameEat : GameState :=
  { id := "m"
    players := [exPlayerEatSolo]
    apples := [{ x := 6, y := 5 }]
    gridSize := { width := 20, height := 20 }, status := GameStatus.PLAYING
    tickRate := 200, winnerId := none }

/-- Two-player `PLAYING` match in which both snakes move off-grid on the
next tick. -/
def exGameBothDie : GameState :=
  { id := "m"
    players := [{ id := "a", socketId := "sA", username := ""
                  snake := { segments := [{ x := 0, y := 0 }, { x := 1, y := 0 }]
                             direction := Direction.LEFT
                             nextDirection := Direction.LEFT, isAlive := true }
                  isReady := true },
                { id := "b", socketId := "sB", username := ""
                  snake := { segments := [{ x := 19, y := 19 }, { x := 18, y := 19 }]
                             direction := Direction.RIGHT
                             nextDirection := Direction.RIGHT, isAlive := true }
                  isReady := true }]
    apples := []
    gridSize := { width := 20, height := 20 }, status := GameStatus.PLAYING
    tickRate := 200, winnerId := none }

/-- Player `"a"` about to eat the apple at `(6, 5)`. -/
def exPlayerEatA : Player :=
  { id := "a", socketId := "sA", username := ""
    snake := { segments := [{ x := 5, y := 5 }, { x := 4, y := 5 },
                 { x := 3, y := 5 }, { x := 2, y := 5 }]
               direction := Direction.RIGHT
               nextDirection := Direction.RIGHT, isAlive := true }
    isReady := true }

/-- Player `"b"` moving harmlessly far away from the apple. -/
def exPlayerFarB : Player :=
  { id := "b", socketId := "sB", username := ""
    snake := { segments := [{ x := 15, y := 15 }, { x := 16, y := 15 },
                 { x := 17, y := 15 }, { x := 18, y := 15 }]
               direction := Direction.LEFT
               nextDirection := Direction.LEFT, isAlive := true }
    isReady := true }

/-- Two-player `PLAYING` match where player `"a"` is about to eat the
apple at `(6, 5)` and player `"b"` moves harmlessly far away. -/
def exGameEatPair : GameState :=
  { id := "m"
    players := [exPlayerEatA, exPlayerFarB]
    apples := [{ x := 6, y := 5 }]
    gridSize := { width := 20, height := 20 }, status := GameStatus.PLAYING
    tickRate := 200, winnerId := none }

/-! ## Basic lemmas about the embedded operations -/

theorem posFieldsEq (a b : Position) : (a.x = b.x ∧ a.y = b.y) ↔ a = b := by
  cases a; cases b; simp

theorem collidesWithSnake_iff (pos : Position) (segments : List Position) :
    collidesWithSnake pos segments = true ↔ pos ∈ segments := by
  unfold collidesWithSnake
  rw [List.any_eq_true]
  constructor
  · rintro ⟨s, hs, hb⟩
    simp only [Bool.and_eq_true, beq_iff_eq] at hb
    have : s = pos := (posFieldsEq s pos).mp ⟨hb.1, hb.2⟩
    exact this ▸ hs
  · intro h
    exact ⟨pos, h, by simp⟩

theorem collidesWithSnake_eq_false (pos : Position) (segments : List Position) :
    collidesWithSnake pos segments = false ↔ pos ∉ segments := by
  rw [← Bool.not_eq_true, not_iff_not]
  exact collidesWithSnake_iff pos segments

theorem eatApple_isSome_iff (l : List Position) (x : Position) :
    (eatApple l x).isSome = true ↔ x ∈ l := by
  induction l with
  | nil => simp [eatApple]
  | cons a rest ih =>
    by_cases h : a = x
    · subst h; simp [eatApple]
    · have hf : ¬(a.x = x.x ∧ a.y = x.y) := fun hc => h ((posFieldsEq a x).mp hc)
      rw [eatApple, if_neg hf]
      cases he : eatApple rest x with
      | some r =>
        rw [he] at ih
        simp only [Option.isSome_some, true_iff] at ih
        simp [List.mem_cons, ih]
      | none =>
        rw [he] at ih
        simp only [Option.isSome_none, Bool.false_eq_true, false_iff] at ih
        simp [List.mem_cons, ih]
        exact fun hxa => h hxa.symm

theorem eatApple_length (l : List Position) (x : Position) (r : List Position)
    (h : eatApple l x = some r) : r.length + 1 = l.length := by
  induction l generalizing r with
  | nil => simp [eatApple] at h
  | cons a rest ih =>
    by_cases hax : a.x = x.x ∧ a.y = x.y
    · rw [eatApple, if_pos hax] at h
      cases h
      simp
    · rw [eatApple, if_neg hax] at h
      cases he : eatApple rest x with
      | some r' =>
        rw [he] at h
        cases h
        simp [ih r' he]
      | none => rw [he] at h; cases h

theorem eatApple_not_mem (l : List Position) (x : Position) :
    ∀ r, l.Nodup → eatApple l x = some r → x ∉ r := by
  induction l with
  | nil => intro r _ h; simp [eatApple] at h
  | cons a rest ih =>
    intro r hnd h
    rcases List.nodup_cons.mp hnd with ⟨hna, hnd'⟩
    by_cases hax : a.x = x.x ∧ a.y = x.y
    · rw [eatApple, if_pos hax] at h
      cases h
      have hax' : a = x := (posFieldsEq a x).mp hax
      exact hax' ▸ hna
    · rw [eatApple, if_neg hax] at h
      cases he : eatApple rest x with
      | some r' =>
        rw [he] at h
        cases h
        intro hmem
        rcases List.mem_cons.mp hmem with hxa | hxr
        · exact hax ((posFieldsEq a x).mpr hxa.symm)
        · exact ih r' hnd' he hxr
      | none => rw [he] at h; cases h

theorem eatApple_subset (l : List Position) (x : Position) (r : List Position)
    (h : eatApple l x = some r) : ∀ y ∈ r, y ∈ l := by
  induction l generalizing r with
  | nil => simp [eatApple] at h
  | cons a rest ih =>
    by_cases hax : a.x = x.x ∧ a.y = x.y
    · rw [eatApple, if_pos hax] at h
      cases h
      intro y hy; exact List.mem_cons_of_mem a hy
    · rw [eatApple, if_neg hax] at h
      cases he : eatApple rest x with
      | some r' =>
        rw [he] at h
        cases h
        intro y hy
        rcases List.mem_cons.mp hy with h1 | h2
        · exact h1 ▸ List.mem_cons_self a rest
        · exact List.mem_cons_of_mem a (ih r' he y h2)
      | none => rw [he] at h; cases h

theorem eatApple_exists_of_mem (l : List Position) (x : Position) (h : x ∈ l) :
    ∃ r, eatApple l x = some r := by
  have := (eatApple_isSome_iff l x).mpr h
  cases he : eatApple l x with
  | some r => exact ⟨r, rfl⟩
  | none => rw [he] at this; simp at this

theorem mapGet_mapSet_self (R : Registry) (k : String) (v : GameState) :
    mapGet (mapSet R k v) k = some v := by
  induction R with
  | nil => simp [mapGet, mapSet, List.find?]
  | cons e rest ih =>
    by_cases h : e.1 = k
    · simp [mapSet, h, mapGet, List.find?]
    · have hb : (e.1 == k) = false := beq_eq_false_iff_ne.mpr h
      simp only [mapSet, hb, Bool.false_eq_true, if_false]
      simpa [mapGet, List.find?, hb] using ih

theorem mapGet_mapSet_other (R : Registry) (k k' : String) (v : GameState)
    (hne : k' ≠ k) : mapGet (mapSet R k v) k' = mapGet R k' := by
  have hkk' : (k == k') = false := beq_eq_false_iff_ne.mpr (Ne.symm hne)
  induction R with
  | nil => simp [mapGet, mapSet, List.find?, hkk']
  | cons e rest ih =>
    by_cases h : e.1 = k
    · have hb : (e.1 == k') = false := by rw [h]; exact hkk'
      simp [mapSet, h, mapGet, List.find?, hkk', hb]
    · have hb : (e.1 == k) = false := beq_eq_false_iff_ne.mpr h
      simp only [mapSet, hb, Bool.false_eq_true, if_false]
      by_cases h2 : e.1 = k'
      · simp [mapGet, List.find?, h2]
      · have hb2 : (e.1 == k') = false := beq_eq_false_iff_ne.mpr h2
        simpa [mapGet, List.find?, hb2] using ih

theorem playersGet_id (ps : List Player) (pid : String) (pl : Player)
    (h : playersGet ps pid = some pl) : pl.id = pid := by
  induction ps with
  | nil => simp [playersGet, List.find?] at h
  | cons q rest ih =>
    by_cases hq : q.id = pid
    · simp only [playersGet, List.find?, beq_iff_eq.mpr hq, Option.some.injEq] at h
      rw [← h]; exact hq
    · have hb : (q.id == pid) = false := beq_eq_false_iff_ne.mpr hq
      simp only [playersGet, List.find?, hb] at h
      exact ih h

theorem playersGet_set_self (ps : List Player) (pid : String) (pl x : Player)
    (hget : playersGet ps pid = some pl) (hx : x.id = pid) :
    playersGet (playersSet ps pid x) pid = some x := by
  induction ps with
  | nil => simp [playersGet, List.find?] at hget
  | cons q rest ih =>
    by_cases h : q.id = pid
    · simp [playersSet, h, playersGet, List.find?, hx]
    · have hb : (q.id == pid) = false := beq_eq_false_iff_ne.mpr h
      simp only [playersSet, hb, Bool.false_eq_true, if_false]
      simp only [playersGet, List.find?, hb] at hget
      simpa [playersGet, List.find?, hb] using ih hget

theorem playersGet_set_other (ps : List Player) (pid pid' : String) (x : Player)
    (hx : x.id = pid) (hne : pid' ≠ pid) :
    playersGet (playersSet ps pid x) pid' = playersGet ps pid' := by
  induction ps with
  | nil =>
    have hb : (x.id == pid') = false := beq_eq_false_iff_ne.mpr (hx ▸ Ne.symm hne)
    simp [playersGet, playersSet, List.find?, hb]
  | cons q rest ih =>
    by_cases h : q.id = pid
    · have hb : (x.id == pid') = false := by
        rw [hx]; exact beq_eq_false_iff_ne.mpr (Ne.symm hne)
      have hqb : (q.id == pid') = false := by
        rw [h]; exact beq_eq_false_iff_ne.mpr (Ne.symm hne)
      have hpb : (pid == pid') = false := beq_eq_false_iff_ne.mpr (Ne.symm hne)
      simp [playersSet, h, playersGet, List.find?, hb, hqb, hpb]
    · have hb : (q.id == pid) = false := beq_eq_false_iff_ne.mpr h
      simp only [playersSet, hb, Bool.false_eq_true, if_false]
      by_cases h2 : q.id = pid'
      · simp [playersGet, List.find?, h2]
      · have hb2 : (q.id == pid') = false := beq_eq_false_iff_ne.mpr h2
        simpa [playersGet, List.find?, hb2] using ih

theorem playersSet_found (ps : List Player) (pid : String) (pl : Player)
    (hget : playersGet ps pid = some pl) : playersSet ps pid pl = ps := by
  induction ps with
  | nil => simp [playersGet, List.find?] at hget
  | cons q rest ih =>
    by_cases h : q.id = pid
    · simp only [playersGet, List.find?, beq_iff_eq.mpr h, Option.some.injEq] at hget
      subst hget
      simp [playersSet, beq_iff_eq.mpr h]
    · have hb : (q.id == pid) = false := beq_eq_false_iff_ne.mpr h
      simp only [playersGet, List.find?, hb] at hget
      simp [playersSet, hb, ih hget]

theorem playersSet_playersSet (ps : List Player) (pid : String) (x y : Player)
    (hx : x.id = pid) : playersSet (playersSet ps pid x) pid y = playersSet ps pid y := by
  induction ps with
  | nil => simp [playersSet, hx]
  | cons q rest ih =>
    by_cases h : q.id = pid
    · simp [playersSet, h, hx]
    · have hb : (q.id == pid) = false := beq_eq_false_iff_ne.mpr h
      simp [playersSet, hb, ih]

theorem spawnAppleLoop_not_mem (occupied : List Position) (draws : Nat → Position) :
    ∀ fuel idx c idx', spawnAppleLoop occupied draws idx fuel = some (c, idx') →
      c ∉ occupied := by
  intro fuel
  induction fuel with
  | zero => intro idx c idx' h; simp [spawnAppleLoop] at h
  | succ n ih =>
    intro idx c idx' h
    rw [spawnAppleLoop] at h
    by_cases hm : draws idx ∈ occupied
    · rw [if_pos hm] at h
      exact ih (idx + 1) c idx' h
    · rw [if_neg hm] at h
      cases h
      exact hm

theorem spawnApple_players (draws : Nat → Position) (idx : Nat) (g : GameState) :
    (spawnApple draws idx g).1.players = g.players := by
  unfold spawnApple
  rcases hsp : spawnAppleLoop (occupiedPositions g) draws idx 100 with _ | ⟨c, j⟩ <;> simp

theorem spawnApple_status (draws : Nat → Position) (idx : Nat) (g : GameState) :
    (spawnApple draws idx g).1.status = g.status := by
  unfold spawnApple
  rcases hsp : spawnAppleLoop (occupiedPositions g) draws idx 100 with _ | ⟨c, j⟩ <;> simp

theorem spawnApple_winnerId (draws : Nat → Position) (idx : Nat) (g : GameState) :
    (spawnApple draws idx g).1.winnerId = g.winnerId := by
  unfold spawnApple
  rcases hsp : spawnAppleLoop (occupiedPositions g) draws idx 100 with _ | ⟨c, j⟩ <;> simp

theorem spawnApple_gridSize (draws : Nat → Position) (idx : Nat) (g : GameState) :
    (spawnApple draws idx g).1.gridSize = g.gridSize := by
  unfold spawnApple
  rcases hsp : spawnAppleLoop (occupiedPositions g) draws idx 100 with _ | ⟨c, j⟩ <;> simp

theorem spawnApple_apples (draws : Nat → Position) (idx : Nat) (g : GameState) :
    (spawnApple draws idx g).1.apples = g.apples ∨
      ∃ c, c ∉ occupiedPositions g ∧ (spawnApple draws idx g).1.apples = g.apples ++ [c] := by
  unfold spawnApple
  rcases hsp : spawnAppleLoop (occupiedPositions g) draws idx 100 with _ | ⟨c, j⟩
  · left; rfl
  · right
    exact ⟨c, spawnAppleLoop_not_mem _ draws 100 idx c j hsp, rfl⟩

theorem eatApple_eq_none (l : List Position) (x : Position) :
    eatApple l x = none ↔ x ∉ l := by
  constructor
  · intro h hm
    obtain ⟨r, hr⟩ := eatApple_exists_of_mem l x hm
    rw [h] at hr
    cases hr
  · intro h
    cases he : eatApple l x with
    | none => rfl
    | some r => exact absurd ((eatApple_isSome_iff l x).mp (by rw [he]; rfl)) h

theorem opponentCollision_eq_false_iff (g : GameState) (pid : String) (nh : Position) :
    opponentCollision g pid nh = false ↔
      ∀ q ∈ g.players, q.id ≠ pid → q.snake.isAlive = true → nh ∉ q.snake.segments := by
  unfold opponentCollision
  rw [List.any_eq_false]
  constructor
  · intro h q hq hne hal hmem
    have hx := h q hq
    simp [beq_eq_false_iff_ne.mpr hne, hal,
      (collidesWithSnake_iff nh q.snake.segments).mpr hmem] at hx
  · intro h q hq
    by_cases hne : q.id = pid
    · simp [hne]
    · cases hal : q.snake.isAlive with
      | false => simp [hal]
      | true =>
        have hnm := h q hq hne hal
        simp [beq_eq_false_iff_ne.mpr hne, hal,
          (collidesWithSnake_eq_false nh q.snake.segments).mpr hnm]

theorem opponentCollision_eq_true_iff (g : GameState) (pid : String) (nh : Position) :
    opponentCollision g pid nh = true ↔
      ∃ q ∈ g.players, q.id ≠ pid ∧ q.snake.isAlive = true ∧ nh ∈ q.snake.segments := by
  unfold opponentCollision
  rw [List.any_eq_true]
  constructor
  · rintro ⟨q, hq, hb⟩
    simp only [Bool.and_eq_true, Bool.not_eq_true', beq_eq_false_iff_ne] at hb
    exact ⟨q, hq, hb.1.1, hb.1.2, (collidesWithSnake_iff _ _).mp hb.2⟩
  · rintro ⟨q, hq, hne, hal, hmem⟩
    refine ⟨q, hq, ?_⟩
    simp [beq_eq_false_iff_ne.mpr hne, hal, (collidesWithSnake_iff _ _).mpr hmem]

theorem stepPlayer_status (draws : Nat → Position) (st : GameState × Nat) (pid : String) :
    ((stepPlayer draws st pid).1).status = st.1.status := by
  unfold stepPlayer
  cases hget : playersGet st.1.players pid with
  | none => rfl
  | some player =>
    repeat' split
    all_goals simp [spawnApple_status]

theorem stepPlayer_winnerId (draws : Nat → Position) (st : GameState × Nat) (pid : String) :
    ((stepPlayer draws st pid).1).winnerId = st.1.winnerId := by
  unfold stepPlayer
  cases hget : playersGet st.1.players pid with
  | none => rfl
  | some player =>
    repeat' split
    all_goals simp [spawnApple_winnerId]

theorem stepPlayer_gridSize (draws : Nat → Position) (st : GameState × Nat) (pid : String) :
    ((stepPlayer draws st pid).1).gridSize = st.1.gridSize := by
  unfold stepPlayer
  cases hget : playersGet st.1.players pid with
  | none => rfl
  | some player =>
    repeat' split
    all_goals simp [spawnApple_gridSize]

theorem stepPlayer_other (draws : Nat → Position) (st : GameState × Nat) (pid pid' : String)
    (hne : pid' ≠ pid) :
    playersGet ((stepPlayer draws st pid).1).players pid' = playersGet st.1.players pid' := by
  unfold stepPlayer
  cases hget : playersGet st.1.players pid with
  | none => rfl
  | some player =>
    have hid : player.id = pid := playersGet_id _ _ _ hget
    dsimp only
    repeat' split
    all_goals simp [spawnApple_players, playersGet_set_other, hid, hne]

/-- Complete characterization of one pass of the per-player loop body for
the processed player itself: either the snake was already dead and nothing
happens, or its snake is rewritten in place — committed direction, and
then one of: empty-segment skip, death by wall / self / opponent with
segments unchanged, growth onto an apple, or a normal move. -/
theorem stepPlayer_self_spec (draws : Nat → Position) (st : GameState × Nat) (pid : String)
    (player : Player) (hget : playersGet st.1.players pid = some player) :
    (player.snake.isAlive = false ∧ stepPlayer draws st pid = st) ∨
    (player.snake.isAlive = true ∧ ∃ sn : Snake,
      (stepPlayer draws st pid).1.players =
          playersSet st.1.players pid { player with snake := sn } ∧
      sn.direction = player.snake.nextDirection ∧
      sn.nextDirection = player.snake.nextDirection ∧
      ((sn.segments = player.snake.segments ∧ player.snake.segments = [] ∧ sn.isAlive = true) ∨
       ∃ hd tl, player.snake.segments = hd :: tl ∧
         ((sn.isAlive = false ∧ sn.segments = player.snake.segments ∧
            (isOutOfBounds (getNextPosition hd player.snake.nextDirection) st.1.gridSize = true ∨
             getNextPosition hd player.snake.nextDirection ∈ player.snake.segments ∨
             opponentCollision st.1 pid (getNextPosition hd player.snake.nextDirection) = true)) ∨
          (sn.isAlive = true ∧
            isOutOfBounds (getNextPosition hd player.snake.nextDirection) st.1.gridSize = false ∧
            getNextPosition hd player.snake.nextDirection ∉ player.snake.segments ∧
            opponentCollision st.1 pid (getNextPosition hd player.snake.nextDirection) = false ∧
            ((getNextPosition hd player.snake.nextDirection ∈ st.1.apples ∧
              sn.segments = getNextPosition hd player.snake.nextDirection ::
                player.snake.segments) ∨
             (getNextPosition hd player.snake.nextDirection ∉ st.1.apples ∧
              sn.segments = getNextPosition hd player.snake.nextDirection ::
                player.snake.segments.dropLast)))))) := by
  have hid : player.id = pid := playersGet_id _ _ _ hget
  unfold stepPlayer
  rw [hget]
  dsimp only
  cases hal : player.snake.isAlive with
  | false =>
    left
    exact ⟨rfl, by simp⟩
  | true =>
    right
    refine ⟨rfl, ?_⟩
    rw [if_pos rfl]
    cases hseg : player.snake.segments with
    | nil =>
      dsimp only
      refine ⟨{ segments := [], direction := player.snake.nextDirection,
                nextDirection := player.snake.nextDirection, isAlive := true },
        rfl, rfl, rfl, Or.inl ⟨rfl, rfl, rfl⟩⟩
    | cons head rest =>
      dsimp only
      cases hw : isOutOfBounds (getNextPosition head player.snake.nextDirection) st.1.gridSize with
      | true =>
        rw [if_pos rfl]
        refine ⟨{ segments := head :: rest, direction := player.snake.nextDirection,
                  nextDirection := player.snake.nextDirection, isAlive := false },
          rfl, rfl, rfl, Or.inr ⟨head, rest, rfl, Or.inl ⟨rfl, rfl, Or.inl hw⟩⟩⟩
      | false =>
        rw [if_neg Bool.false_ne_true]
        cases hc : collidesWithSnake (getNextPosition head player.snake.nextDirection)
            (head :: rest) with
        | true =>
          rw [if_pos rfl]
          refine ⟨{ segments := head :: rest, direction := player.snake.nextDirection,
                    nextDirection := player.snake.nextDirection, isAlive := false },
            rfl, rfl, rfl, Or.inr ⟨head, rest, rfl,
              Or.inl ⟨rfl, rfl, Or.inr (Or.inl ((collidesWithSnake_iff _ _).mp hc))⟩⟩⟩
        | false =>
          rw [if_neg Bool.false_ne_true]
          cases ho : opponentCollision st.1 pid
              (getNextPosition head player.snake.nextDirection) with
          | true =>
            rw [if_pos rfl]
            refine ⟨{ segments := head :: rest, direction := player.snake.nextDirection,
                      nextDirection := player.snake.nextDirection, isAlive := false },
              rfl, rfl, rfl, Or.inr ⟨head, rest, rfl,
                Or.inl ⟨rfl, rfl, Or.inr (Or.inr ho)⟩⟩⟩
          | false =>
            rw [if_neg Bool.false_ne_true]
            cases he : eatApple st.1.apples
                (getNextPosition head player.snake.nextDirection) with
            | some apples' =>
              dsimp only
              have hmem : getNextPosition head player.snake.nextDirection ∈ st.1.apples :=
                (eatApple_isSome_iff _ _).mp (by rw [he]; rfl)
              refine ⟨{ segments := getNextPosition head player.snake.nextDirection ::
                          head :: rest,
                        direction := player.snake.nextDirection,
                        nextDirection := player.snake.nextDirection, isAlive := true },
                ?_, rfl, rfl, Or.inr ⟨head, rest, rfl, Or.inr
                  ⟨rfl, hw, (collidesWithSnake_eq_false _ _).mp hc, ho, Or.inl ⟨hmem, rfl⟩⟩⟩⟩
              rw [spawnApple_players]
              dsimp only
              exact playersSet_playersSet _ _ _ _ hid
            | none =>
              dsimp only
              refine ⟨{ segments := (getNextPosition head player.snake.nextDirection ::
                          head :: rest).dropLast,
                        direction := player.snake.nextDirection,
                        nextDirection := player.snake.nextDirection, isAlive := true },
                rfl, rfl, rfl, Or.inr ⟨head, rest, rfl, Or.inr
                  ⟨rfl, hw, (collidesWithSnake_eq_false _ _).mp hc, ho,
                   Or.inr ⟨(eatApple_eq_none _ _).mp he, List.dropLast_cons₂⟩⟩⟩⟩

theorem checkGameOver_players (g : GameState) : (checkGameOver g).players = g.players := by
  unfold checkGameOver
  dsimp only
  repeat' split
  all_goals rfl

theorem checkGameOver_apples (g : GameState) : (checkGameOver g).apples = g.apples := by
  unfold checkGameOver
  dsimp only
  repeat' split
  all_goals rfl

theorem foldSteps_status (draws : Nat → Position) (ids : List String) :
    ∀ st : GameState × Nat, ((ids.foldl (stepPlayer draws) st).1).status = st.1.status := by
  induction ids with
  | nil => intro st; rfl
  | cons a l ih =>
    intro st
    rw [List.foldl_cons, ih (stepPlayer draws st a)]
    exact stepPlayer_status draws st a

theorem foldSteps_winnerId (draws : Nat → Position) (ids : List String) :
    ∀ st : GameState × Nat, ((ids.foldl (stepPlayer draws) st).1).winnerId = st.1.winnerId := by
  induction ids with
  | nil => intro st; rfl
  | cons a l ih =>
    intro st
    rw [List.foldl_cons, ih (stepPlayer draws st a)]
    exact stepPlayer_winnerId draws st a

/-! ## Claim theorems -/

/-- C9: for every matchId, `tick` returns `false` and leaves the registry
(and the draw index) unchanged whenever the match is absent from the
registry or its status is not `PLAYING`. -/
theorem tick_noop_of_absent_or_not_playing (draws : Nat → Position) (idx : Nat)
    (R : Registry) (gameId : String)
    (h : mapGet R gameId = none ∨
      ∃ g, mapGet R gameId = some g ∧ g.status ≠ GameStatus.PLAYING) :
    tick draws idx R gameId = (R, idx, false) := by
  unfold tick
  rcases h with h | ⟨g, hg, hs⟩
  · rw [h]
  · rw [hg]
    dsimp only
    rw [if_pos hs]

/-- Witness for C9 at a concrete input: the empty registry. -/
theorem tick_noop_witness :
    (mapGet ([] : Registry) "m" = none ∨
      ∃ g, mapGet ([] : Registry) "m" = some g ∧ g.status ≠ GameStatus.PLAYING) ∧
    tick exDraws0 0 ([] : Registry) "m" = (([] : Registry), 0, false) :=
  ⟨Or.inl rfl, tick_noop_of_absent_or_not_playing exDraws0 0 [] "m" (Or.inl rfl)⟩

/-- C7 counterexample: `createGame` on an identifier that is already bound
does not fail — it replaces the bound match (here a `PLAYING` one with an
apple) with a fresh `WAITING` match. -/
theorem createGame_overwrites_cex :
    mapGet ([("m", exGameEat)] : Registry) "m" = some exGameEat ∧
    exGameEat.status = GameStatus.PLAYING ∧
    mapGet ((createGame [("m", exGameEat)] "m").1) "m" = some ((createGame [("m", exGameEat)] "m").2) ∧
    (createGame [("m", exGameEat)] "m").2.status = GameStatus.WAITING ∧
    (createGame [("m", exGameEat)] "m").2 ≠ exGameEat := by
  refine ⟨rfl, rfl, rfl, rfl, ?_⟩
  decide

/-- C7 (amended): `createGame` on an existing matchId does not fail and
does not keep the old match: it rebinds the identifier to the freshly
built `WAITING` match with empty player map and apple list. -/
theorem createGame_existing_overwrites (R : Registry) (gameId : String) (g0 : GameState)
    (h : mapGet R gameId = some g0) :
    mapGet (createGame R gameId).1 gameId = some ((createGame R gameId).2) ∧
    (createGame R gameId).2.status = GameStatus.WAITING ∧
    (createGame R gameId).2.players = [] ∧
    (createGame R gameId).2.apples = [] := by
  refine ⟨?_, rfl, rfl, rfl⟩
  unfold createGame
  exact mapGet_mapSet_self R gameId _

/-- Witness for C7's amended theorem at a concrete registry. -/
theorem createGame_existing_overwrites_witness :
    mapGet ([("m", exGameEat)] : Registry) "m" = some exGameEat ∧
    (mapGet (createGame [("m", exGameEat)] "m").1 "m" = some ((createGame [("m", exGameEat)] "m").2) ∧
     (createGame [("m", exGameEat)] "m").2.status = GameStatus.WAITING ∧
     (createGame [("m", exGameEat)] "m").2.players = [] ∧
     (createGame [("m", exGameEat)] "m").2.apples = []) :=
  ⟨rfl, createGame_existing_overwrites [("m", exGameEat)] "m" exGameEat rfl⟩

theorem isOppositeDirection_oppositeDir (d : Direction) :
    isOppositeDirection d (oppositeDir d) = true := by
  cases d <;> rfl

/-- C5: in a `PLAYING` match, requesting the exact 180° reversal of a
living snake's current direction is dropped: the whole registry — in
particular the snake's `nextDirection` — is left unchanged. -/
theorem changeDirection_reversal_dropped (R : Registry) (gameId playerId : String)
    (g : GameState) (player : Player)
    (hg : mapGet R gameId = some g) (hst : g.status = GameStatus.PLAYING)
    (hp : playersGet g.players playerId = some player)
    (hal : player.snake.isAlive = true) :
    changeDirection R gameId playerId (oppositeDir player.snake.direction) = R := by
  unfold changeDirection
  rw [hg]
  dsimp only
  rw [if_neg (by rw [hst]; exact fun hc => hc rfl)]
  rw [hp]
  dsimp only
  rw [if_neg (by rw [hal]; exact fun hc => Bool.noConfusion hc)]
  rw [if_pos (isOppositeDirection_oppositeDir player.snake.direction)]

/-- Witness for C5 at a concrete match. -/
theorem changeDirection_reversal_dropped_witness :
    (mapGet ([("m", exGameHeadOn)] : Registry) "m" = some exGameHeadOn ∧
     exGameHeadOn.status = GameStatus.PLAYING ∧
     playersGet exGameHeadOn.players "a" = some exPlayerA ∧
     exPlayerA.snake.isAlive = true) ∧
    changeDirection [("m", exGameHeadOn)] "m" "a" (oppositeDir exPlayerA.snake.direction) =
      [("m", exGameHeadOn)] :=
  ⟨⟨rfl, rfl, rfl, rfl⟩,
   changeDirection_reversal_dropped [("m", exGameHeadOn)] "m" "a" exGameHeadOn exPlayerA
     rfl rfl rfl rfl⟩

theorem checkGameOver_spec (G : GameState) :
    ((G.players.filter (fun p => p.snake.isAlive)).length = 0 →
      (checkGameOver G).status = GameStatus.FINISHED ∧ (checkGameOver G).winnerId = G.winnerId) ∧
    ((G.players.filter (fun p => p.snake.isAlive)).length = 1 →
      (checkGameOver G).status = GameStatus.FINISHED ∧
      ∀ p ∈ G.players, p.snake.isAlive = true → (checkGameOver G).winnerId = some p.id) ∧
    (2 ≤ (G.players.filter (fun p => p.snake.isAlive)).length →
      checkGameOver G = G) := by
  unfold checkGameOver
  dsimp only
  by_cases h0 : (G.players.filter (fun p => p.snake.isAlive)).length = 0
  · rw [if_pos h0]
    exact ⟨fun _ => ⟨rfl, rfl⟩, fun h1 => absurd h1 (by omega), fun h2 => absurd h2 (by omega)⟩
  · rw [if_neg h0]
    by_cases h1 : (G.players.filter (fun p => p.snake.isAlive)).length = 1
    · rw [if_pos h1]
      refine ⟨fun h0' => absurd h0' h0, fun _ => ⟨rfl, ?_⟩, fun h2 => absurd h2 (by omega)⟩
      obtain ⟨p0, hp0⟩ := List.length_eq_one.mp h1
      intro p hp hal
      have hmem : p ∈ G.players.filter (fun p => p.snake.isAlive) :=
        List.mem_filter.mpr ⟨hp, hal⟩
      rw [hp0] at hmem
      have hpp0 : p = p0 := by simpa using hmem
      simp [hp0, hpp0]
    · rw [if_neg h1]
      exact ⟨fun h0' => absurd h0' h0, fun h1' => absurd h1' h1, fun _ => rfl⟩

/-- C2: after all snakes of a tick of a `PLAYING` match are processed, the
termination check: 0 alive snakes leaves `FINISHED` with no winner set,
exactly 1 alive snake leaves `FINISHED` with the survivor's id as winner,
and 2 alive snakes leave the match `PLAYING` with no winner. -/
theorem tick_termination (draws : Nat → Position) (idx : Nat) (g : GameState)
    (hst : g.status = GameStatus.PLAYING) (hwin : g.winnerId = none) :
    ((((tickGame draws idx g).1).players.filter (fun p => p.snake.isAlive)).length = 0 →
      ((tickGame draws idx g).1).status = GameStatus.FINISHED ∧
      ((tickGame draws idx g).1).winnerId = none) ∧
    ((((tickGame draws idx g).1).players.filter (fun p => p.snake.isAlive)).length = 1 →
      ((tickGame draws idx g).1).status = GameStatus.FINISHED ∧
      ∀ p ∈ ((tickGame draws idx g).1).players, p.snake.isAlive = true →
        ((tickGame draws idx g).1).winnerId = some p.id) ∧
    ((((tickGame draws idx g).1).players.filter (fun p => p.snake.isAlive)).length = 2 →
      ((tickGame draws idx g).1).status = GameStatus.PLAYING ∧
      ((tickGame draws idx g).1).winnerId = none) := by
  unfold tickGame
  dsimp only
  rw [checkGameOver_players]
  obtain ⟨c0, c1, c2⟩ :=
    checkGameOver_spec (((g.players.map (fun p => p.id)).foldl (stepPlayer draws) (g, idx)).1)
  refine ⟨fun h0 => ?_, fun h1 => ?_, fun h2 => ?_⟩
  · obtain ⟨hs, hw⟩ := c0 h0
    refine ⟨hs, ?_⟩
    rw [hw, foldSteps_winnerId]
    exact hwin
  · obtain ⟨hs, hw⟩ := c1 h1
    exact ⟨hs, hw⟩
  · have hfix := c2 (by omega)
    constructor
    · rw [hfix, foldSteps_status]
      exact hst
    · rw [hfix, foldSteps_winnerId]
      exact hwin

/-- Witness for C2: both snakes of `exGameBothDie` step off-grid in the
same tick, so the match finishes with no winner. -/
theorem tick_termination_witness :
    (exGameBothDie.status = GameStatus.PLAYING ∧ exGameBothDie.winnerId = none ∧
     (((tickGame exDraws0 0 exGameBothDie).1).players.filter
        (fun p => p.snake.isAlive)).length = 0) ∧
    (((tickGame exDraws0 0 exGameBothDie).1).status = GameStatus.FINISHED ∧
     ((tickGame exDraws0 0 exGameBothDie).1).winnerId = none) :=
  ⟨⟨rfl, rfl, by decide⟩,
   (tick_termination exDraws0 0 exGameBothDie rfl rfl).1 (by decide)⟩

/-- C1 counterexample: in `exGameHeadOn` both snakes head for the free
cell `(5, 5)`.  Player `"b"`'s new head coincides with no pre-tick segment
of the alive opposing snake `"a"`, yet `"b"` is marked dead on this tick —
the opponent check ran against `"a"`'s already-moved segments, so the
claim's "exactly when ... pre-tick" fails. -/
theorem tick_opponent_check_not_pretick_cex :
    exGameHeadOn.status = GameStatus.PLAYING ∧
    playerAliveAt exGameHeadOn "a" = true ∧
    playerAliveAt exGameHeadOn "b" = true ∧
    getNextPosition { x := 6, y := 5 } Direction.LEFT = { x := 5, y := 5 } ∧
    ({ x := 5, y := 5 } : Position) ∉ exPlayerA.snake.segments ∧
    playerAliveAt (tickGame exDraws0 0 exGameHeadOn).1 "b" = false := by
  exact ⟨rfl, rfl, rfl, rfl, by decide, by decide⟩

/-- C1 (amended): only the first-processed snake's opponent check is
evaluated against the opponent's pre-tick segments.  In a two-player
`PLAYING` match with both snakes alive, the first snake in iteration
order (given an in-bounds, non-self-colliding move) is marked dead on
this tick exactly when its new head coincides with a pre-tick segment of
the opposing snake; the second-processed snake is instead checked against
the opponent's already-updated segments (see the counterexample). -/
theorem tick_first_player_pretick_check (draws : Nat → Position) (idx : Nat) (g : GameState)
    (p q : Player) (hps : g.players = [p, q]) (hne : p.id ≠ q.id)
    (hst : g.status = GameStatus.PLAYING)
    (hpa : p.snake.isAlive = true) (hqa : q.snake.isAlive = true)
    (hd : Position) (tl : List Position) (hseg : p.snake.segments = hd :: tl)
    (hw : isOutOfBounds (getNextPosition hd p.snake.nextDirection) g.gridSize = false)
    (hs : getNextPosition hd p.snake.nextDirection ∉ p.snake.segments) :
    playerAliveAt (tickGame draws idx g).1 p.id = false ↔
      getNextPosition hd p.snake.nextDirection ∈ q.snake.segments := by
  have hgetp : playersGet g.players p.id = some p := by
    rw [hps]; simp [playersGet, List.find?]
  have hids : g.players.map (fun r => r.id) = [p.id, q.id] := by rw [hps]; rfl
  have hfold : (tickGame draws idx g).1.players =
      (stepPlayer draws (stepPlayer draws (g, idx) p.id) q.id).1.players := by
    unfold tickGame
    dsimp only
    rw [checkGameOver_players, hids]
    simp only [List.foldl_cons, List.foldl_nil]
  rcases stepPlayer_self_spec draws (g, idx) p.id p hgetp with ⟨hdead, _⟩ | ⟨_, sn, hplayers1, _, _, outcome⟩
  · rw [hpa] at hdead; cases hdead
  · have hgetfin : playersGet (tickGame draws idx g).1.players p.id =
        some { p with snake := sn } := by
      rw [hfold, stepPlayer_other draws _ q.id p.id hne, hplayers1]
      exact playersGet_set_self g.players p.id p _ hgetp rfl
    have hval : playerAliveAt (tickGame draws idx g).1 p.id = sn.isAlive := by
      unfold playerAliveAt
      rw [hgetfin]
      rfl
    rcases outcome with ⟨_, hnil, _⟩ | ⟨hd', tl', hseg', rest⟩
    · rw [hseg] at hnil; cases hnil
    · rw [hseg] at hseg'
      injection hseg' with hh ht
      subst hh
      subst ht
      rcases rest with ⟨hdead, _, hreason⟩ | ⟨halive, _, _, ho, _⟩
      · rcases hreason with hwall | hself | hopp
        · rw [hw] at hwall; cases hwall
        · exact absurd (hseg ▸ hself) (hseg ▸ hs)
        · rcases (opponentCollision_eq_true_iff g p.id _).mp hopp with ⟨r, hrmem, hrne, hral, hrsegs⟩
          rw [hps] at hrmem
          rcases List.mem_cons.mp hrmem with hrp | hr
          · exact absurd (hrp ▸ rfl : r.id = p.id) (hrp ▸ hrne)
          · have hrq : r = q := by simpa using hr
            subst hrq
            rw [hval, hdead]
            exact iff_of_true rfl hrsegs
      · have hnotq : getNextPosition hd p.snake.nextDirection ∉ q.snake.segments := by
          have hall := (opponentCollision_eq_false_iff g p.id _).mp ho
          exact hall q (by rw [hps]; exact List.mem_cons_of_mem p (List.mem_cons_self q []))
            (fun hc => hne hc.symm) hqa
        rw [hval, halive]
        exact iff_of_false (fun hc => Bool.noConfusion hc) hnotq

/-- Witness for C1's amended theorem: in `exGameHeadOn` the first snake's
target cell `(5, 5)` lies in none of `"b"`'s pre-tick segments, and
indeed `"a"` survives the tick. -/
theorem tick_first_player_pretick_check_witness :
    (exGameHeadOn.players = [exPlayerA, exPlayerB] ∧ exPlayerA.id ≠ exPlayerB.id ∧
     exGameHeadOn.status = GameStatus.PLAYING ∧
     exPlayerA.snake.isAlive = true ∧ exPlayerB.snake.isAlive = true ∧
     exSnakeA.segments = { x := 4, y := 5 } ::
       [{ x := 3, y := 5 }, { x := 2, y := 5 }, { x := 1, y := 5 }] ∧
     isOutOfBounds (getNextPosition { x := 4, y := 5 } exPlayerA.snake.nextDirection)
       exGameHeadOn.gridSize = false ∧
     getNextPosition { x := 4, y := 5 } exPlayerA.snake.nextDirection ∉
       exPlayerA.snake.segments) ∧
    (playerAliveAt (tickGame exDraws0 0 exGameHeadOn).1 exPlayerA.id = false ↔
      getNextPosition { x := 4, y := 5 } exPlayerA.snake.nextDirection ∈
        exPlayerB.snake.segments) :=
  ⟨⟨rfl, by decide, rfl, rfl, rfl, rfl, by decide, by decide⟩,
   tick_first_player_pretick_check exDraws0 0 exGameHeadOn exPlayerA exPlayerB rfl
     (by decide) rfl rfl rfl { x := 4, y := 5 }
     [{ x := 3, y := 5 }, { x := 2, y := 5 }, { x := 1, y := 5 }] rfl (by decide) (by decide)⟩

/-- C3: in a two-player `PLAYING` match, a snake that is alive at the
start of the tick and survives it grows by exactly one segment when its
new head lands on an apple and keeps its segment count otherwise.  For
the first-processed snake "an apple" means an entry of the pre-tick apple
list; the second-processed snake is checked against the apple list as it
stands after the first snake's step (it can consume an apple spawned
moments earlier in the same tick). -/
theorem tick_growth (draws : Nat → Position) (idx : Nat) (g : GameState)
    (p q : Player) (hps : g.players = [p, q]) (hne : p.id ≠ q.id)
    (hst : g.status = GameStatus.PLAYING) :
    (∀ hd tl, p.snake.isAlive = true → p.snake.segments = hd :: tl →
      playerAliveAt (tickGame draws idx g).1 p.id = true →
      playerSegsLen (tickGame draws idx g).1 p.id =
        p.snake.segments.length +
          (if getNextPosition hd p.snake.nextDirection ∈ g.apples then 1 else 0)) ∧
    (∀ hd tl, q.snake.isAlive = true → q.snake.segments = hd :: tl →
      playerAliveAt (tickGame draws idx g).1 q.id = true →
      playerSegsLen (tickGame draws idx g).1 q.id =
        q.snake.segments.length +
          (if getNextPosition hd q.snake.nextDirection ∈
              ((stepPlayer draws (g, idx) p.id).1).apples then 1 else 0)) := by
  have hgetp : playersGet g.players p.id = some p := by
    rw [hps]; simp [playersGet, List.find?]
  have hgetq : playersGet g.players q.id = some q := by
    rw [hps]; simp [playersGet, List.find?, beq_eq_false_iff_ne.mpr hne]
  have hids : g.players.map (fun r => r.id) = [p.id, q.id] := by rw [hps]; rfl
  have hfold : (tickGame draws idx g).1.players =
      (stepPlayer draws (stepPlayer draws (g, idx) p.id) q.id).1.players := by
    unfold tickGame
    dsimp only
    rw [checkGameOver_players, hids]
    simp only [List.foldl_cons, List.foldl_nil]
  constructor
  · intro hd tl hpa hseg halfin
    rcases stepPlayer_self_spec draws (g, idx) p.id p hgetp with
      ⟨hdead, _⟩ | ⟨_, sn, hplayers1, _, _, outcome⟩
    · rw [hpa] at hdead; cases hdead
    · have hgetfin : playersGet (tickGame draws idx g).1.players p.id =
          some { p with snake := sn } := by
        rw [hfold, stepPlayer_other draws _ q.id p.id hne, hplayers1]
        exact playersGet_set_self g.players p.id p _ hgetp rfl
      have hval : playerAliveAt (tickGame draws idx g).1 p.id = sn.isAlive := by
        unfold playerAliveAt; rw [hgetfin]; rfl
      have hlen : playerSegsLen (tickGame draws idx g).1 p.id = sn.segments.length := by
        unfold playerSegsLen; rw [hgetfin]; rfl
      rw [hval] at halfin
      rcases outcome with ⟨_, hnil, _⟩ | ⟨hd', tl', hseg', rest⟩
      · rw [hseg] at hnil; cases hnil
      · rw [hseg] at hseg'
        injection hseg' with hh ht
        subst hh; subst ht
        rcases rest with ⟨hdeadsn, _, _⟩ | ⟨_, _, _, _, happle⟩
        · rw [halfin] at hdeadsn; cases hdeadsn
        · rcases happle with ⟨hmem, hsegs⟩ | ⟨hnmem, hsegs⟩
          · rw [hlen, hsegs, if_pos hmem]
            simp
          · rw [hlen, hsegs, if_neg hnmem, hseg]
            simp only [List.length_cons, List.length_dropLast]
            omega
  · intro hd tl hqa hseg halfin
    have hgetq1 : playersGet (stepPlayer draws (g, idx) p.id).1.players q.id = some q := by
      rw [stepPlayer_other draws (g, idx) p.id q.id (fun hc => hne hc.symm)]
      exact hgetq
    rcases stepPlayer_self_spec draws (stepPlayer draws (g, idx) p.id) q.id q hgetq1 with
      ⟨hdead, _⟩ | ⟨_, sn, hplayers2, _, _, outcome⟩
    · rw [hqa] at hdead; cases hdead
    · have hgetfin : playersGet (tickGame draws idx g).1.players q.id =
          some { q with snake := sn } := by
        rw [hfold, hplayers2]
        exact playersGet_set_self _ q.id q _ hgetq1 rfl
      have hval : playerAliveAt (tickGame draws idx g).1 q.id = sn.isAlive := by
        unfold playerAliveAt; rw [hgetfin]; rfl
      have hlen : playerSegsLen (tickGame draws idx g).1 q.id = sn.segments.length := by
        unfold playerSegsLen; rw [hgetfin]; rfl
      rw [hval] at halfin
      rcases outcome with ⟨_, hnil, _⟩ | ⟨hd', tl', hseg', rest⟩
      · rw [hseg] at hnil; cases hnil
      · rw [hseg] at hseg'
        injection hseg' with hh ht
        subst hh; subst ht
        rcases rest with ⟨hdeadsn, _, _⟩ | ⟨_, _, _, _, happle⟩
        · rw [halfin] at hdeadsn; cases hdeadsn
        · rcases happle with ⟨hmem, hsegs⟩ | ⟨hnmem, hsegs⟩
          · rw [hlen, hsegs, if_pos hmem]
            simp
          · rw [hlen, hsegs, if_neg hnmem, hseg]
            simp only [List.length_cons, List.length_dropLast]
            omega

/-- Witness for C3: in `exGameEatPair` snake `"a"` eats the apple at
`(6, 5)` and grows to 5 segments; snake `"b"` eats nothing and keeps its
4 segments. -/
theorem tick_growth_witness :
    (exGameEatPair.players = [exPlayerEatA, exPlayerFarB] ∧
     exPlayerEatA.id ≠ exPlayerFarB.id ∧ exGameEatPair.status = GameStatus.PLAYING ∧
     exPlayerEatA.snake.isAlive = true ∧ exPlayerFarB.snake.isAlive = true) ∧
    playerSegsLen (tickGame exDraws0 0 exGameEatPair).1 exPlayerEatA.id = 5 ∧
    playerSegsLen (tickGame exDraws0 0 exGameEatPair).1 exPlayerFarB.id = 4 := by
  refine ⟨⟨rfl, by decide, rfl, rfl, rfl⟩, ?_, ?_⟩
  · have h := (tick_growth exDraws0 0 exGameEatPair exPlayerEatA exPlayerFarB rfl
      (by decide) rfl).1 { x := 5, y := 5 }
      [{ x := 4, y := 5 }, { x := 3, y := 5 }, { x := 2, y := 5 }] rfl rfl (by decide)
    rw [h]
    decide
  · have h := (tick_growth exDraws0 0 exGameEatPair exPlayerEatA exPlayerFarB rfl
      (by decide) rfl).2 { x := 15, y := 15 }
      [{ x := 16, y := 15 }, { x := 17, y := 15 }, { x := 18, y := 15 }] rfl rfl (by decide)
    rw [h]
    decide

/-- C8 counterexample: in `exGameEat` the snake eats the apple at
`(6, 5)`; with the draw stream proposing `(6, 5)` the replacement apple is
placed back on the very cell just consumed (legal, because the eaten
snake's new head is not yet a segment when `spawnApple` runs), so the
consumed position still appears in the post-tick apple list. -/
theorem tick_apple_respawn_at_consumed_cell_cex :
    exGameEat.status = GameStatus.PLAYING ∧
    exGameEat.apples = [{ x := 6, y := 5 }] ∧
    getNextPosition { x := 5, y := 5 } Direction.RIGHT = { x := 6, y := 5 } ∧
    (tickGame exDraws65 0 exGameEat).1.apples = [{ x := 6, y := 5 }] ∧
    playerSegsLen (tickGame exDraws65 0 exGameEat).1 "a" = 5 := by
  exact ⟨rfl, rfl, rfl, by decide, by decide⟩

/-- C8 (amended): on a tick where the snake's new head equals an apple's
position, that apple is removed (so with duplicate-free apples the
consumed position is gone from the surviving apples), and either the
bounded sampling failed and the list is one shorter, or one replacement
is appended at a drawn cell free of every pre-move snake segment and
every remaining apple — the replacement may be the consumed cell itself,
since the new head is not yet a segment at spawn time. -/
theorem tick_apple_consumption (draws : Nat → Position) (idx : Nat) (g : GameState)
    (p : Player) (hps : g.players = [p]) (hst : g.status = GameStatus.PLAYING)
    (hpa : p.snake.isAlive = true)
    (hd : Position) (tl : List Position) (hseg : p.snake.segments = hd :: tl)
    (hnd : g.apples.Nodup)
    (hmem : getNextPosition hd p.snake.nextDirection ∈ g.apples)
    (hw : isOutOfBounds (getNextPosition hd p.snake.nextDirection) g.gridSize = false)
    (hs : getNextPosition hd p.snake.nextDirection ∉ p.snake.segments) :
    ∃ rest, eatApple g.apples (getNextPosition hd p.snake.nextDirection) = some rest ∧
      getNextPosition hd p.snake.nextDirection ∉ rest ∧
      rest.length + 1 = g.apples.length ∧
      ((tickGame draws idx g).1.apples = rest ∨
        ∃ c, c ∉ p.snake.segments ∧ c ∉ rest ∧
          (tickGame draws idx g).1.apples = rest ++ [c]) := by
  have hget : playersGet g.players p.id = some p := by
    rw [hps]; simp [playersGet, List.find?]
  have happles : (tickGame draws idx g).1.apples = (stepPlayer draws (g, idx) p.id).1.apples := by
    unfold tickGame
    dsimp only
    rw [checkGameOver_apples,
      show g.players.map (fun r => r.id) = [p.id] from by rw [hps]; rfl]
    simp only [List.foldl_cons, List.foldl_nil]
  obtain ⟨rest, he⟩ := eatApple_exists_of_mem _ _ hmem
  have hcol : collidesWithSnake (getNextPosition hd p.snake.nextDirection)
      (hd :: tl) = false := (collidesWithSnake_eq_false _ _).mpr (hseg ▸ hs)
  have ho : opponentCollision g p.id (getNextPosition hd p.snake.nextDirection) = false := by
    unfold opponentCollision
    rw [hps]
    simp
  refine ⟨rest, he, eatApple_not_mem _ _ rest hnd he, eatApple_length _ _ rest he, ?_⟩
  rw [happles]
  unfold stepPlayer
  rw [hget]
  dsimp only
  rw [if_pos hpa, hseg]
  dsimp only
  rw [if_neg (by rw [hw]; exact fun hc => Bool.noConfusion hc),
    if_neg (by rw [hcol]; exact fun hc => Bool.noConfusion hc),
    if_neg (by rw [ho]; exact fun hc => Bool.noConfusion hc), he]
  dsimp only
  have hspec := spawnApple_apples draws idx
    { g with
        players := playersSet g.players p.id
          { p with snake :=
              { segments := hd :: tl
                direction := p.snake.nextDirection
                nextDirection := p.snake.nextDirection
                isAlive := p.snake.isAlive } }
        apples := rest }
  have hocc : occupiedPositions
      { g with
          players := playersSet g.players p.id
            { p with snake :=
                { segments := hd :: tl
                  direction := p.snake.nextDirection
                  nextDirection := p.snake.nextDirection
                  isAlive := p.snake.isAlive } }
          apples := rest } = (hd :: tl) ++ rest := by
    unfold occupiedPositions
    rw [hps]
    simp [playersSet]
  rcases hspec with hA | ⟨c, hcnot, hA⟩
  · left
    exact hA
  · right
    rw [hocc] at hcnot
    simp only [List.mem_append, not_or] at hcnot
    exact ⟨c, hcnot.1, hcnot.2, hA⟩

/-- Witness for C8's amended theorem: with draws proposing the free cell
`(0, 0)` the consumed apple is replaced elsewhere. -/
theorem tick_apple_consumption_witness :
    (exGameEat.players = [exPlayerEatSolo] ∧ exGameEat.status = GameStatus.PLAYING ∧
     exPlayerEatSolo.snake.isAlive = true ∧ exGameEat.apples.Nodup ∧
     getNextPosition { x := 5, y := 5 } exPlayerEatSolo.snake.nextDirection ∈ exGameEat.apples ∧
     isOutOfBounds (getNextPosition { x := 5, y := 5 } exPlayerEatSolo.snake.nextDirection)
       exGameEat.gridSize = false ∧
     getNextPosition { x := 5, y := 5 } exPlayerEatSolo.snake.nextDirection ∉
       exPlayerEatSolo.snake.segments) ∧
    (∃ rest, eatApple exGameEat.apples
        (getNextPosition { x := 5, y := 5 } exPlayerEatSolo.snake.nextDirection) = some rest ∧
      getNextPosition { x := 5, y := 5 } exPlayerEatSolo.snake.nextDirection ∉ rest ∧
      rest.length + 1 = exGameEat.apples.length ∧
      ((tickGame exDraws0 0 exGameEat).1.apples = rest ∨
        ∃ c, c ∉ exPlayerEatSolo.snake.segments ∧ c ∉ rest ∧
          (tickGame exDraws0 0 exGameEat).1.apples = rest ++ [c])) :=
  ⟨⟨rfl, rfl, rfl, by decide, by decide, by decide, by decide⟩,
   tick_apple_consumption exDraws0 0 exGameEat exPlayerEatSolo rfl rfl rfl
     { x := 5, y := 5 }
     [{ x := 4, y := 5 }, { x := 3, y := 5 }, { x := 2, y := 5 }] rfl (by decide) (by decide)
     (by decide) (by decide)⟩

theorem removeEntry_sublist (q : List WaitingEntry) (pid : String) :
    (removeEntry q pid).Sublist q := by
  induction q with
  | nil => exact List.Sublist.refl []
  | cons e rest ih =>
    by_cases h : e.playerId = pid
    · rw [removeEntry, if_pos h]
      exact List.sublist_cons_self e rest
    · rw [removeEntry, if_neg h]
      exact ih.cons₂ e

theorem removeEntry_no_pid (q : List WaitingEntry) (pid : String)
    (hnd : (q.map (fun e => e.playerId)).Nodup) :
    ∀ e ∈ removeEntry q pid, e.playerId ≠ pid := by
  induction q with
  | nil => intro e he; cases he
  | cons a rest ih =>
    rw [List.map_cons, List.nodup_cons] at hnd
    by_cases h : a.playerId = pid
    · rw [removeEntry, if_pos h]
      intro e he hc
      exact hnd.1 (h ▸ hc ▸ List.mem_map_of_mem (fun r => r.playerId) he)
    · rw [removeEntry, if_neg h]
      intro e he
      rcases List.mem_cons.mp he with rfl | he'
      · exact h
      · exact ih hnd.2 e he'

/-- The registry state produced by creating a fresh game and adding two
players to it, as `findMatch` does when pairing: the new game holds
exactly the two players, in join order. -/
theorem playersSet_nil (pid : String) (p : Player) : playersSet [] pid p = [p] := rfl

theorem playersSet_cons_ne (q : Player) (rest : List Player) (pid : String) (p : Player)
    (h : (q.id == pid) = false) :
    playersSet (q :: rest) pid p = q :: playersSet rest pid p := by
  rw [playersSet, h]
  simp

theorem createGame_addPlayer_pair (R : Registry) (gid : String)
    (pidA sidA : String) (unA : Option String) (pidB sidB : String) (unB : Option String)
    (hne : pidA ≠ pidB) :
    ∃ g', mapGet ((addPlayer ((addPlayer ((createGame R gid).1) gid pidA sidA unA).1)
        gid pidB sidB unB).1) gid = some g' ∧
      ∃ pa pb, g'.players = [pa, pb] ∧ pa.id = pidA ∧ pb.id = pidB := by
  have hbeq : (pidA == pidB) = false := beq_eq_false_iff_ne.mpr hne
  unfold createGame
  dsimp only
  unfold addPlayer
  rw [mapGet_mapSet_self]
  dsimp only
  rw [if_neg (by simp)]
  dsimp only
  rw [mapGet_mapSet_self]
  dsimp only
  rw [if_neg (by simp [playersSet_nil])]
  dsimp only
  rw [mapGet_mapSet_self]
  refine ⟨_, rfl, ?_⟩
  dsimp only
  rw [playersSet_nil, playersSet_cons_ne _ _ _ _ hbeq, playersSet_nil]
  exact ⟨_, _, rfl, rfl, rfl⟩

/-- C6: with waiting entries `[A, B]` (A the longest-waiting) and a fresh
request from a player `C` in neither entry, `findMatch` pairs A (player 0)
with C (player 1) in a newly created match, returns the new match
identifier, and leaves B as the sole queue entry. -/
theorem findMatch_fifo (A B : WaitingEntry) (R : Registry)
    (pid sid : String) (un : Option String) (gid : String)
    (hA : pid ≠ A.playerId) (hB : pid ≠ B.playerId) :
    (findMatch ⟨[A, B], R⟩ pid sid un gid).2 = some gid ∧
    (findMatch ⟨[A, B], R⟩ pid sid un gid).1.queue = [B] ∧
    ∃ g', mapGet ((findMatch ⟨[A, B], R⟩ pid sid un gid).1).registry gid = some g' ∧
      g'.players.map (fun r => r.id) = [A.playerId, pid] := by
  have hrem : removeEntry [A, B] pid = [A, B] := by
    simp [removeEntry, Ne.symm hA, Ne.symm hB]
  unfold findMatch
  dsimp only
  rw [hrem]
  dsimp only
  refine ⟨rfl, rfl, ?_⟩
  obtain ⟨g', hg', pa, pb, hplayers, hpa, hpb⟩ :=
    createGame_addPlayer_pair R gid A.playerId A.socketId A.username pid sid un (Ne.symm hA)
  exact ⟨g', hg', by rw [hplayers]; simp [hpa, hpb]⟩

/-- Witness for C6 at concrete queue entries. -/
theorem findMatch_fifo_witness :
    (("C" : String) ≠ "A" ∧ ("C" : String) ≠ "B") ∧
    (findMatch ⟨[⟨"A", "sA", some ""⟩, ⟨"B", "sB", some ""⟩], []⟩ "C" "sC" none "g1").2 =
      some "g1" ∧
    (findMatch ⟨[⟨"A", "sA", some ""⟩, ⟨"B", "sB", some ""⟩], []⟩ "C" "sC" none "g1").1.queue =
      [⟨"B", "sB", some ""⟩] ∧
    ∃ g', mapGet ((findMatch ⟨[⟨"A", "sA", some ""⟩, ⟨"B", "sB", some ""⟩], []⟩
        "C" "sC" none "g1").1).registry "g1" = some g' ∧
      g'.players.map (fun r => r.id) = ["A", "C"] :=
  ⟨⟨by decide, by decide⟩,
   findMatch_fifo ⟨"A", "sA", some ""⟩ ⟨"B", "sB", some ""⟩ [] "C" "sC" none "g1"
     (by decide) (by decide)⟩

/-- C10: `findMatch` never pairs a player with themselves.  Assuming the
queue holds pairwise-distinct player ids (an invariant the queue
operations preserve), any stale entry of the requester is gone from the
examined queue, the queue keeps pairwise-distinct ids afterwards, and a
newly created match holds exactly two players with distinct ids, the
second being the requester. -/
theorem findMatch_no_self_pair (s : MMState) (pid sid : String) (un : Option String)
    (gid : String) (hnd : (s.queue.map (fun e => e.playerId)).Nodup) :
    (∀ e ∈ removeEntry s.queue pid, e.playerId ≠ pid) ∧
    (((findMatch s pid sid un gid).1.queue.map (fun e => e.playerId)).Nodup) ∧
    (∀ gid', (findMatch s pid sid un gid).2 = some gid' →
      ∃ g' pa pb, mapGet ((findMatch s pid sid un gid).1).registry gid' = some g' ∧
        g'.players = [pa, pb] ∧ pa.id ≠ pid ∧ pb.id = pid) := by
  have hstale := removeEntry_no_pid s.queue pid hnd
  have hndrem : ((removeEntry s.queue pid).map (fun e => e.playerId)).Nodup :=
    hnd.sublist ((removeEntry_sublist s.queue pid).map _)
  cases hq : removeEntry s.queue pid with
  | nil =>
    refine ⟨hq ▸ hstale, ?_, ?_⟩
    · unfold findMatch
      dsimp only
      rw [hq]
      dsimp only
      simp
    · intro gid' hret
      unfold findMatch at hret
      dsimp only at hret
      rw [hq] at hret
      dsimp only at hret
      exact Option.noConfusion hret
  | cons opp rest =>
    refine ⟨hq ▸ hstale, ?_, ?_⟩
    · unfold findMatch
      dsimp only
      rw [hq]
      dsimp only
      have hnd2 := hq ▸ hndrem
      rw [List.map_cons, List.nodup_cons] at hnd2
      exact hnd2.2
    · intro gid' hret
      have hoppne : opp.playerId ≠ pid :=
        hstale opp (by rw [hq]; exact List.mem_cons_self _ _)
      unfold findMatch at hret ⊢
      dsimp only at hret ⊢
      rw [hq] at hret ⊢
      dsimp only at hret ⊢
      injection hret with hgid
      subst hgid
      obtain ⟨g', hg', pa, pb, hpl, hpa, hpb⟩ :=
        createGame_addPlayer_pair s.registry gid opp.playerId opp.socketId opp.username
          pid sid un hoppne
      exact ⟨g', pa, pb, hg', hpl, fun hc => hoppne (hpa.symm.trans hc), hpb⟩

/-- Witness for C10 at a concrete queue `[A]` and requester `C`. -/
theorem findMatch_no_self_pair_witness :
    ((([⟨"A", "sA", some ""⟩] : List WaitingEntry).map (fun e => e.playerId)).Nodup) ∧
    ((∀ e ∈ removeEntry [⟨"A", "sA", some ""⟩] "C", e.playerId ≠ "C") ∧
     (((findMatch ⟨[⟨"A", "sA", some ""⟩], []⟩ "C" "sC" none "g1").1.queue.map
        (fun e => e.playerId)).Nodup) ∧
     (∀ gid', (findMatch ⟨[⟨"A", "sA", some ""⟩], []⟩ "C" "sC" none "g1").2 = some gid' →
       ∃ g' pa pb,
         mapGet ((findMatch ⟨[⟨"A", "sA", some ""⟩], []⟩ "C" "sC" none "g1").1).registry gid' =
           some g' ∧
         g'.players = [pa, pb] ∧ pa.id ≠ "C" ∧ pb.id = "C")) :=
  ⟨by decide,
   findMatch_no_self_pair ⟨[⟨"A", "sA", some ""⟩], []⟩ "C" "sC" none "g1" (by decide)⟩

/-- Survivor-oriented repackaging of `stepPlayer_self_spec`: either the
processed snake was dead and the state is untouched, or its player entry
is rewritten, and whenever the written snake is alive its segments are
empty (as before) or a fresh head consed onto a sublist of the old
segments, where the fresh head avoids the old segments and every living
other snake's current segments. -/
theorem stepPlayer_survivor_spec (draws : Nat → Position) (st : GameState × Nat) (pid : String)
    (x : Player) (hget : playersGet st.1.players pid = some x) :
    (x.snake.isAlive = false ∧ stepPlayer draws st pid = st) ∨
    ∃ sn : Snake,
      (stepPlayer draws st pid).1.players =
          playersSet st.1.players pid { x with snake := sn } ∧
      (sn.isAlive = true →
        x.snake.isAlive = true ∧
        (sn.segments = [] ∨
         ∃ nh Y, sn.segments = nh :: Y ∧ Y.Sublist x.snake.segments ∧
           nh ∉ x.snake.segments ∧
           (∀ r ∈ st.1.players, r.id ≠ pid → r.snake.isAlive = true →
             nh ∉ r.snake.segments))) := by
  rcases stepPlayer_self_spec draws st pid x hget with ⟨hdead, heq⟩ | ⟨hal, sn, hpl, _, _, outcome⟩
  · exact Or.inl ⟨hdead, heq⟩
  · refine Or.inr ⟨sn, hpl, fun hsal => ⟨hal, ?_⟩⟩
    rcases outcome with ⟨hsegs, hnil, _⟩ | ⟨hd, tl, hseg, rest⟩
    · left
      rw [hsegs, hnil]
    · rcases rest with ⟨hsdead, _, _⟩ | ⟨_, _, hself, hopp, happle⟩
      · exact absurd (hsdead.symm.trans hsal) (fun hc => Bool.noConfusion hc)
      · right
        rcases happle with ⟨_, hsegs⟩ | ⟨_, hsegs⟩
        · exact ⟨_, _, hsegs, List.Sublist.refl _, hself,
            (opponentCollision_eq_false_iff st.1 pid _).mp hopp⟩
        · exact ⟨_, _, hsegs, List.dropLast_sublist _, hself,
            (opponentCollision_eq_false_iff st.1 pid _).mp hopp⟩

/-- C4: one tick of a two-player `PLAYING` match preserves the
overlap-freedom invariant: if before the tick no alive snake
self-overlaps and no two alive snakes share a cell, the same holds at the
end of the tick. -/
theorem tick_no_overlap (draws : Nat → Position) (idx : Nat) (g : GameState)
    (p q : Player) (hps : g.players = [p, q]) (hne : p.id ≠ q.id)
    (hst : g.status = GameStatus.PLAYING) (hinv : noOverlap g) :
    noOverlap (tickGame draws idx g).1 := by
  obtain ⟨hN, hD⟩ := hinv
  have hpmem : p ∈ g.players := by rw [hps]; exact List.mem_cons_self _ _
  have hqmem : q ∈ g.players := by rw [hps]; exact List.mem_cons_of_mem _ (List.mem_cons_self _ _)
  have hgetp : playersGet g.players p.id = some p := by
    rw [hps]; simp [playersGet, List.find?]
  have hids : g.players.map (fun r => r.id) = [p.id, q.id] := by rw [hps]; rfl
  have hfoldplayers : (tickGame draws idx g).1.players =
      (stepPlayer draws (stepPlayer draws (g, idx) p.id) q.id).1.players := by
    unfold tickGame
    dsimp only
    rw [checkGameOver_players, hids]
    simp only [List.foldl_cons, List.foldl_nil]
  obtain ⟨p₁, hpl1, hp1id, hp1fact⟩ :
      ∃ p₁ : Player, (stepPlayer draws (g, idx) p.id).1.players = [p₁, q] ∧ p₁.id = p.id ∧
        (p₁.snake.isAlive = true →
          p.snake.isAlive = true ∧
          (p₁.snake.segments = [] ∨
           ∃ nh Y, p₁.snake.segments = nh :: Y ∧ Y.Sublist p.snake.segments ∧
             nh ∉ p.snake.segments ∧
             (q.snake.isAlive = true → nh ∉ q.snake.segments))) := by
    rcases stepPlayer_survivor_spec draws (g, idx) p.id p hgetp with
      ⟨hpdead, heq1⟩ | ⟨sn, hpl, hfact⟩
    · refine ⟨p, ?_, rfl, fun hal =>
        absurd (hpdead.symm.trans hal) (fun hc => Bool.noConfusion hc)⟩
      rw [heq1]
      exact hps
    · refine ⟨{ p with snake := sn }, ?_, rfl, ?_⟩
      · rw [hpl, hps]
        simp [playersSet]
      · intro hal
        obtain ⟨hpa, hcases⟩ := hfact hal
        refine ⟨hpa, ?_⟩
        rcases hcases with hnil | ⟨nh, Y, hsegs, hsub, hself, hopp⟩
        · exact Or.inl hnil
        · exact Or.inr ⟨nh, Y, hsegs, hsub, hself,
            fun hqal => hopp q hqmem (fun hc => hne hc.symm) hqal⟩
  have hbeq1 : (p₁.id == q.id) = false := by
    rw [hp1id]; exact beq_eq_false_iff_ne.mpr hne
  have hgetq1 : playersGet (stepPlayer draws (g, idx) p.id).1.players q.id = some q := by
    rw [hpl1]
    simp [playersGet, List.find?, hbeq1]
  obtain ⟨q₁, hpl2, hq1id, hq1fact⟩ :
      ∃ q₁ : Player,
        (stepPlayer draws (stepPlayer draws (g, idx) p.id) q.id).1.players = [p₁, q₁] ∧
        q₁.id = q.id ∧
        (q₁.snake.isAlive = true →
          q.snake.isAlive = true ∧
          (q₁.snake.segments = [] ∨
           ∃ nh Y, q₁.snake.segments = nh :: Y ∧ Y.Sublist q.snake.segments ∧
             nh ∉ q.snake.segments ∧
             (p₁.snake.isAlive = true → nh ∉ p₁.snake.segments))) := by
    rcases stepPlayer_survivor_spec draws (stepPlayer draws (g, idx) p.id) q.id q hgetq1 with
      ⟨hqdead, heq2⟩ | ⟨sn, hpl, hfact⟩
    · refine ⟨q, ?_, rfl, fun hal =>
        absurd (hqdead.symm.trans hal) (fun hc => Bool.noConfusion hc)⟩
      rw [heq2]
      exact hpl1
    · refine ⟨{ q with snake := sn }, ?_, rfl, ?_⟩
      · rw [hpl, hpl1]
        simp [playersSet, hbeq1]
      · intro hal
        obtain ⟨hqa, hcases⟩ := hfact hal
        refine ⟨hqa, ?_⟩
        rcases hcases with hnil | ⟨nh, Y, hsegs, hsub, hself, hopp⟩
        · exact Or.inl hnil
        · refine Or.inr ⟨nh, Y, hsegs, hsub, hself, fun hp1al => ?_⟩
          exact hopp p₁ (by rw [hpl1]; exact List.mem_cons_self _ _)
            (by rw [hp1id]; exact hne) hp1al
  have hfinal : (tickGame draws idx g).1.players = [p₁, q₁] := by
    rw [hfoldplayers, hpl2]
  have hNp : p.snake.isAlive = true → p.snake.segments.Nodup := hN p hpmem
  have hNq : q.snake.isAlive = true → q.snake.segments.Nodup := hN q hqmem
  have hnodup1 : p₁.snake.isAlive = true → p₁.snake.segments.Nodup := by
    intro hal
    obtain ⟨hpa, hcases⟩ := hp1fact hal
    rcases hcases with hnil | ⟨nh, Y, hsegs, hsub, hself, _⟩
    · rw [hnil]; exact List.nodup_nil
    · rw [hsegs]
      exact List.nodup_cons.mpr ⟨fun hc => hself (hsub.subset hc), (hNp hpa).sublist hsub⟩
  have hnodup2 : q₁.snake.isAlive = true → q₁.snake.segments.Nodup := by
    intro hal
    obtain ⟨hqa, hcases⟩ := hq1fact hal
    rcases hcases with hnil | ⟨nh, Y, hsegs, hsub, hself, _⟩
    · rw [hnil]; exact List.nodup_nil
    · rw [hsegs]
      exact List.nodup_cons.mpr ⟨fun hc => hself (hsub.subset hc), (hNq hqa).sublist hsub⟩
  have hcore : p₁.snake.isAlive = true → q₁.snake.isAlive = true →
      ∀ c, c ∈ p₁.snake.segments → c ∉ q₁.snake.segments := by
    intro halp halq c hcp
    obtain ⟨hpa, hcasep⟩ := hp1fact halp
    obtain ⟨hqa, hcaseq⟩ := hq1fact halq
    have hdisj : ∀ c', c' ∈ p.snake.segments → c' ∉ q.snake.segments :=
      hD p hpmem q hqmem hne hpa hqa
    rcases hcasep with hnil | ⟨nhp, Yp, hsegp, hsubp, _, hoppp⟩
    · rw [hnil] at hcp; cases hcp
    · rcases hcaseq with hnil' | ⟨nhq, Yq, hsegq, hsubq, _, hoppq⟩
      · rw [hnil']; exact List.not_mem_nil c
      · have hnhp_q : nhp ∉ q.snake.segments := hoppp hqa
        have hnhq_p1 : nhq ∉ p₁.snake.segments := hoppq halp
        rw [hsegq]
        rw [hsegp] at hcp
        rcases List.mem_cons.mp hcp with rfl | hcY
        · intro hcq
          rcases List.mem_cons.mp hcq with heq2 | hcYq
          · exact hnhq_p1 (heq2 ▸ (hsegp ▸ List.mem_cons_self c Yp))
          · exact hnhp_q (hsubq.subset hcYq)
        · intro hcq
          rcases List.mem_cons.mp hcq with heq2 | hcYq
          · exact hnhq_p1 (heq2 ▸ (hsegp ▸ List.mem_cons_of_mem nhp hcY))
          · exact (hdisj c (hsubp.subset hcY)) (hsubq.subset hcYq)
  constructor
  · intro r hr hal
    rw [hfinal] at hr
    rcases List.mem_cons.mp hr with rfl | hr2
    · exact hnodup1 hal
    · have : r = q₁ := by simpa using hr2
      subst this
      exact hnodup2 hal
  · intro r hr r' hr' hne' hal hal'
    rw [hfinal] at hr hr'
    rcases List.mem_cons.mp hr with rfl | hr2
    · rcases List.mem_cons.mp hr' with heqr | hr2'
      · exact absurd (congrArg Player.id heqr.symm) hne'
      · have hrq' : r' = q₁ := by simpa using hr2'
        rw [hrq'] at hal' ⊢
        exact hcore hal hal'
    · have hrq : r = q₁ := by simpa using hr2
      rcases List.mem_cons.mp hr' with heqr | hr2'
      · rw [hrq] at hal ⊢
        rw [heqr] at hal' ⊢
        exact fun c hc hc' => hcore hal' hal c hc' hc
      · have hrq' : r' = q₁ := by simpa using hr2'
        rw [hrq, hrq'] at hne'
        exact absurd rfl hne'

/-- Witness for C4: the head-to-head match satisfies the invariant before
the tick, and still satisfies it afterwards (the second snake dies in the
collision, the first occupies the contested cell alone). -/
theorem tick_no_overlap_witness :
    (exGameHeadOn.players = [exPlayerA, exPlayerB] ∧ exPlayerA.id ≠ exPlayerB.id ∧
     exGameHeadOn.status = GameStatus.PLAYING ∧ noOverlap exGameHeadOn) ∧
    noOverlap (tickGame exDraws0 0 exGameHeadOn).1 :=
  ⟨⟨rfl, by decide, rfl, by unfold noOverlap aliveNodup alivePairwiseDisjoint; decide⟩,
   tick_no_overlap exDraws0 0 exGameHeadOn exPlayerA exPlayerB rfl (by decide) rfl
     (by unfold noOverlap aliveNodup alivePairwiseDisjoint; decide)⟩
